import Mathlib

/-!
Shallow embedding of the Cilium L7 policy HTTP filter
(`src/cilium/l7policy.cc`): configuration construction, the request-phase
decision pipeline (`AccessFilter::decodeHeaders` and its deferred upstream
callback), and the response-phase finalization
(`AccessFilter::encodeHeaders`), together with the audit-log emission
protocol.

External collaborators (socket option lookup, the policy object, the
access-log sink, `LogEntry`'s field bookkeeping) are modelled at their
interface boundary; the control flow of `l7policy.cc` is translated
line by line.
-/

namespace Cilium

/-- HTTP headers, as an ordered list of key/value pairs. -/
abbrev Headers := List (String × String)

/-- The three audit record phase tags (`::cilium::EntryType`). -/
inductive EntryType where
  | Request
  | Response
  | Denied
deriving DecidableEq, Repr

/-- An IP address with its port, as exposed by
`Network::Address::Ip` (`dip->port()` is read by the filter). The
numeric address is carried only so that identity resolution can key on
it. -/
structure Ip where
  addr : Nat
  port : Nat
deriving DecidableEq, Repr

/-- A network address (`Network::Address::Instance`): `ip` is `none`
for non-IP addresses (`dst_address->ip()` returns null), and `asStr`
is its string form. -/
structure Address where
  ip : Option Ip
  asStr : String
deriving DecidableEq, Repr

/-- Modelled from the spec: the audit `LogEntry` record accumulated per
request. Its mutators `InitFromRequest` / `UpdateFromResponse` live in
the access-log component, which is outside `src/`; per the spec each
field stores the argument that `l7policy.cc` passes at the call site,
and policy evaluation only appends match diagnostics. -/
structure LogEntry where
  policy_name : String := ""
  ingress : Bool := false
  source_identity : Nat := 0
  src_address : String := ""
  destination_identity : Nat := 0
  dst_address : Option Address := none
  request_headers : Headers := []
  response_headers : Option Headers := none
  diagnostics : List String := []
deriving DecidableEq

/-- The `LogEntry::InitFromRequest` mutator, modelled from the spec as storing the
arguments passed by the filter at `l7policy.cc:144-147`. -/
def LogEntry.initFromRequest (policy_name : String) (ingress : Bool)
    (source_identity : Nat) (src_address : String)
    (destination_identity : Nat) (dst_address : Address)
    (headers : Headers) : LogEntry :=
  { policy_name := policy_name
    ingress := ingress
    source_identity := source_identity
    src_address := src_address
    destination_identity := destination_identity
    dst_address := some dst_address
    request_headers := headers
    response_headers := none
    diagnostics := [] }

/-- The `LogEntry::UpdateFromResponse` mutator, modelled from the spec as attaching
the response headers to the entry. -/
def LogEntry.updateFromResponse (e : LogEntry) (headers : Headers) : LogEntry :=
  { e with response_headers := some headers }

/-- Modelled from the spec: the policy object returned by
`option->getPolicy()` (defined in `network_policy.h`, outside `src/`).
`Allowed` is its pure verdict on (ingress, port, identity, headers);
`diag` is the match-diagnostic data it appends to the log entry. -/
structure Policy where
  Allowed : Bool → Nat → Nat → Headers → Bool
  diag : List String

/-- Modelled from the spec: the Cilium socket option attached to the
connection (`socket_option.h`, outside `src/`), carrying the fields the
filter reads: pod address, direction, declared port, local identity,
the identity-resolution capability and the policy lookup result. -/
structure SocketOption where
  pod_ip : String
  ingress : Bool
  port : Nat
  identity : Nat
  resolvePolicyId : Ip → Nat
  getPolicy : Option Policy

/-- The downstream connection, reduced to what the filter reads from it:
the result of `Cilium::GetSocketOption(conn->socketOptions())`. -/
structure Conn where
  socketOption : Option SocketOption

/-- The slice of `StreamInfo` the deferred callback reads: the selected
upstream host's address (null check at `l7policy.cc:129`) and the
downstream remote address. -/
structure StreamDetails where
  upstreamAddress : Option Address
  remoteAddress : String

/-- The `Http::FilterHeadersStatus` values returned by the filter. -/
inductive FilterHeadersStatus where
  | Continue
  | StopIteration
deriving DecidableEq, Repr

end Cilium

namespace Cilium

/-- The ends-in-CRLF test of `Config::Config` at `l7policy.cc:67-68`:
true when the body has at least two characters and ends in `'\r'`,
`'\n'` (the source negates this to decide whether to append). -/
def endsCRLF (b : List Char) : Bool :=
  decide (2 ≤ b.length) && (b.getD (b.length - 2) ' ' == '\r')
    && (b.getD (b.length - 1) ' ' == '\n')

/-- The `denied_403_body_` normalization performed by
`Config::Config(access_log_path, denied_403_body, context)`: an empty
body becomes `"Access denied"`, then a trailing CRLF is appended unless
the last two characters already are CRLF. -/
def Config.normBody (denied_403_body : List Char) : List Char :=
  let b := if denied_403_body.length = 0 then "Access denied".data
           else denied_403_body
  if b.length < 2 ∨ ¬ b.getD (b.length - 2) ' ' = '\r'
      ∨ ¬ b.getD (b.length - 1) ' ' = '\n' then
    b ++ "\r\n".data
  else
    b

/-- Per-filter configuration (`Cilium::Config`): the normalized denial
body and whether `AccessLog::Open` yielded a usable audit channel
(`access_log_ != nullptr`). The `access_denied` counter is modelled as
increments reported by each operation. -/
structure Config where
  denied_403_body : List Char
  accessLogOpen : Bool

/-- The base `Config` constructor: stores the normalized body; the
audit channel state is the outcome of `AccessLog::Open` (a warning is
logged on failure but construction succeeds). -/
def Config.make (denied_403_body : List Char) (accessLogOpen : Bool) : Config :=
  ⟨Config.normBody denied_403_body, accessLogOpen⟩

/-- The protobuf configuration fields read by
`Config::Config(const ::cilium::L7Policy&, context)`. -/
structure L7PolicyProto where
  access_log_path : String
  denied_403_body : String
  policy_name : String
  has_is_ingress : Bool

/-- The protobuf `Config` constructor: delegates to the base
constructor, then throws `EnvoyException` when `policy_name` is
non-empty; a present `is_ingress` flag only logs a deprecation warning
(`l7policy.cc:73-87`). `openOk` is the outcome of `AccessLog::Open` on
`access_log_path`. -/
def Config.fromProto (pc : L7PolicyProto) (openOk : Bool) : Except String Config :=
  let base := Config.make pc.denied_403_body.data openOk
  if pc.policy_name ≠ "" then
    Except.error "cilium.l7policy: policy_name is no longer supported"
  else
    Except.ok base

/-- An observable event of the filter's audit protocol: an
`InitFromRequest` call, an `UpdateFromResponse` call, a
`policy->Allowed` invocation (with the direction, port and identity
passed to it), or an emission of a tagged record through
`Config::Log`. -/
inductive LEvent where
  | initReq
  | updateResp
  | policyCall (ingress : Bool) (port : Nat) (identity : Nat)
  | emit (t : EntryType) (e : LogEntry)
deriving DecidableEq

/-- The `Config::Log(entry, type)` operation: forwards to the access logger only when
the audit channel is open (`access_log_ != nullptr`); disabled logging
is a no-op. Returns the list of emission events produced. -/
def Config.Log (config : Config) (e : LogEntry) (t : EntryType) : List LEvent :=
  if config.accessLogOpen then [LEvent.emit t e] else []

/-- The records emitted (reached `access_log_->Log`) in a trace, with
their phase tags, in order. -/
def emitted (tr : List LEvent) : List (EntryType × LogEntry) :=
  tr.filterMap fun ev => match ev with
    | LEvent.emit t e => some (t, e)
    | _ => none

/-- The phase tags of the records emitted in a trace, in order. -/
def emits (tr : List LEvent) : List EntryType :=
  (emitted tr).map Prod.fst

/-- The per-request mutable filter members: `allowed_` and
`log_entry_`. -/
structure FilterState where
  allowed : Bool
  log_entry : LogEntry
deriving DecidableEq

/-- Modelled from the spec: the verdict member `allowed_` defaults to
`false` (fail-closed) at filter construction; the member initializer
lives in `l7policy.h`, outside `src/`. -/
def AccessFilter.initState : FilterState :=
  ⟨false, {}⟩

/-- The request header whose client-supplied value `decodeHeaders`
strips (`Http::Headers::get().EnvoyOriginalDstHost`). -/
def envoyOriginalDstHost : String := "x-envoy-original-dst-host"

/-- The `HeaderMap::remove` operation: drops every entry with the given key. -/
def removeHeader (key : String) (headers : Headers) : Headers :=
  headers.filter fun kv => kv.1 ≠ key

/-- What `AccessFilter::decodeHeaders` returns and does synchronously:
the (possibly modified) request headers, the returned filter status,
any local reply sent (status code and body), and whether the deferred
upstream callback was registered. -/
structure DecodeOutcome where
  headersOut : Headers
  status : FilterHeadersStatus
  localReply : Option (Nat × List Char)
  callbackRegistered : Bool
deriving DecidableEq

/-- The `AccessFilter::decodeHeaders` operation (`l7policy.cc:103-170`): removes the
original-dst-host header, sends a 403 local reply and stops iteration
when there is no connection, and otherwise registers the deferred
upstream callback and continues. -/
def AccessFilter.decodeHeaders (config : Config) (conn : Option Conn)
    (headers : Headers) : DecodeOutcome :=
  let headers := removeHeader envoyOriginalDstHost headers
  match conn with
  | none => ⟨headers, FilterHeadersStatus.StopIteration,
      some (403, config.denied_403_body), false⟩
  | some _ => ⟨headers, FilterHeadersStatus.Continue, none, true⟩

/-- The deferred callback's result: the boolean returned to the proxy,
the filter state after the call, and the events produced. -/
structure CallbackOutcome where
  verdict : Bool
  state : FilterState
  trace : List LEvent
deriving DecidableEq

/-- The deferred upstream callback registered by `decodeHeaders`
(`l7policy.cc:117-167`), a total function into `CallbackOutcome`
mirroring the source's plain `bool` return: every failure path resolves
to a returned verdict, no error is raised to the pipeline. Early
returns (missing socket option, missing upstream address, non-IP egress
destination) deny without touching the filter state; otherwise the log
entry is initialized, the policy (when present) is evaluated, and an
allowed request is logged as a `Request` record. -/
def AccessFilter.upstreamCallback (config : Config)
    (socketOption : Option SocketOption) (sd : StreamDetails)
    (headers : Headers) (st : FilterState) : CallbackOutcome :=
  match socketOption with
  | none => ⟨false, st, []⟩
  | some option =>
    match sd.upstreamAddress with
    | none => ⟨false, st, []⟩
    | some dst_address =>
      let ingress := option.ingress
      let dests : Option (Nat × Nat) :=
        if ingress then
          some (option.port, 0)
        else
          match dst_address.ip with
          | none => none
          | some dip => some (dip.port, option.resolvePolicyId dip)
      match dests with
      | none => ⟨false, st, []⟩
      | some (destination_port, destination_identity) =>
        let log_entry := LogEntry.initFromRequest option.pod_ip
          option.ingress option.identity sd.remoteAddress
          destination_identity dst_address headers
        match option.getPolicy with
        | some policy =>
          let evalId := if ingress then option.identity
                        else destination_identity
          let allowed := policy.Allowed ingress destination_port evalId headers
          let log_entry :=
            { log_entry with diagnostics := log_entry.diagnostics ++ policy.diag }
          let st := ⟨allowed, log_entry⟩
          ⟨allowed, st,
            [LEvent.initReq, LEvent.policyCall ingress destination_port evalId]
              ++ (if allowed then config.Log log_entry EntryType.Request else [])⟩
        | none =>
          let st := { st with log_entry := log_entry }
          ⟨st.allowed, st, [LEvent.initReq]⟩

/-- What `AccessFilter::encodeHeaders` does: the filter state after the
response update, the events produced, the `access_denied` counter
increment, and the returned status. -/
structure EncodeOutcome where
  state : FilterState
  trace : List LEvent
  accessDeniedInc : Nat
  status : FilterHeadersStatus
deriving DecidableEq

/-- The `AccessFilter::encodeHeaders` operation (`l7policy.cc:172-183`): updates the
log entry from the response, selects `Response` or `Denied` from the
stored verdict, increments the denial counter on `Denied`, emits the
record, and always continues. -/
def AccessFilter.encodeHeaders (config : Config) (respHeaders : Headers)
    (st : FilterState) : EncodeOutcome :=
  let log_entry := st.log_entry.updateFromResponse respHeaders
  let logType := if ¬ st.allowed then EntryType.Denied else EntryType.Response
  let inc := if ¬ st.allowed then 1 else 0
  ⟨⟨st.allowed, log_entry⟩,
    LEvent.updateResp :: config.Log log_entry logType, inc,
    FilterHeadersStatus.Continue⟩

/-- One full request/response exchange through the filter: the
synchronous `decodeHeaders` outcome, the request-phase trace (deferred
callback), the response-phase trace (`encodeHeaders`), the resolved
verdict, and the `access_denied` counter increment. -/
structure RunOutcome where
  decode : DecodeOutcome
  requestTrace : List LEvent
  responseTrace : List LEvent
  verdict : Bool
  accessDeniedInc : Nat
deriving DecidableEq

/-- The filter's lifecycle for one request that reaches header
decoding: `decodeHeaders`; when a connection exists, the deferred
callback fires at upstream-host selection and `encodeHeaders` runs at
response time (the proxy produces terminal response headers whether or
not the callback allowed the request); when no connection exists, the
403 local reply ends the exchange with no callback and no response
phase. -/
def AccessFilter.runRequest (config : Config) (conn : Option Conn)
    (sd : StreamDetails) (reqHeaders respHeaders : Headers) : RunOutcome :=
  let d := AccessFilter.decodeHeaders config conn reqHeaders
  match conn with
  | none => ⟨d, [], [], false, 0⟩
  | some c =>
    let cb := AccessFilter.upstreamCallback config c.socketOption sd
      d.headersOut AccessFilter.initState
    let enc := AccessFilter.encodeHeaders config respHeaders cb.state
    ⟨d, cb.trace, enc.trace, cb.verdict, enc.accessDeniedInc⟩

/-- Recognizer for `InitFromRequest` events in a trace. -/
def isInit : LEvent → Bool
  | LEvent.initReq => true
  | _ => false

/-- A policy object whose `Allowed` accepts every request and appends
no diagnostics. -/
def allowAllPolicy : Policy := ⟨fun _ _ _ _ => true, []⟩

/-- An ingress Cilium socket option with local identity 5 and declared
port 80, carrying an allow-all policy. -/
def soIngress5 : SocketOption :=
  ⟨"10.0.0.1", true, 80, 5, fun _ => 0, some allowAllPolicy⟩

/-- Stream details whose selected upstream host has an IP address. -/
def sdIp : StreamDetails :=
  ⟨some ⟨some ⟨167772161, 80⟩, "10.0.0.1:80"⟩, "10.0.0.9:5555"⟩

/-- A body ends with exactly one trailing CRLF when its last two
characters are CRLF and they are not preceded by another CRLF. -/
def endsWithOneCRLF (b : List Char) : Prop :=
  "\r\n".data <:+ b ∧ ¬ "\r\n\r\n".data <:+ b

theorem emitted_nil : emitted [] = [] := rfl

theorem emitted_cons_emit (t : EntryType) (e : LogEntry) (tr : List LEvent) :
    emitted (LEvent.emit t e :: tr) = (t, e) :: emitted tr := rfl

theorem emitted_cons_initReq (tr : List LEvent) :
    emitted (LEvent.initReq :: tr) = emitted tr := rfl

theorem emitted_cons_updateResp (tr : List LEvent) :
    emitted (LEvent.updateResp :: tr) = emitted tr := rfl

theorem emitted_cons_policyCall (ing : Bool) (port identity : Nat)
    (tr : List LEvent) :
    emitted (LEvent.policyCall ing port identity :: tr) = emitted tr := rfl

theorem emitted_append (tr₁ tr₂ : List LEvent) :
    emitted (tr₁ ++ tr₂) = emitted tr₁ ++ emitted tr₂ := by
  simp [emitted]

/-- Exhaustive outcome shapes of the deferred callback: an early deny
that leaves the state and trace empty; the no-policy path that
initializes the log entry, emits nothing and returns the stored
verdict; or the policy-evaluation path whose verdict is the policy's
answer and which emits a `Request` record exactly when allowed. -/
theorem upstreamCallback_shape (config : Config) (so : Option SocketOption)
    (sd : StreamDetails) (headers : Headers) (st : FilterState) :
    AccessFilter.upstreamCallback config so sd headers st = ⟨false, st, []⟩
    ∨ (∃ le, AccessFilter.upstreamCallback config so sd headers st
        = ⟨st.allowed, { st with log_entry := le }, [LEvent.initReq]⟩)
    ∨ (∃ b ing port identity le,
        AccessFilter.upstreamCallback config so sd headers st
          = ⟨b, ⟨b, le⟩,
              [LEvent.initReq, LEvent.policyCall ing port identity]
                ++ (if b then config.Log le EntryType.Request else [])⟩) := by
  obtain ⟨ua, ra⟩ := sd
  cases so with
  | none => exact Or.inl rfl
  | some option =>
    obtain ⟨pod_ip, ingress, port, identity, rpi, gp⟩ := option
    cases ua with
    | none => exact Or.inl rfl
    | some dst_address =>
      obtain ⟨dip, dstr⟩ := dst_address
      cases ingress with
      | true =>
        cases gp with
        | none => exact Or.inr (Or.inl ⟨_, rfl⟩)
        | some policy => exact Or.inr (Or.inr ⟨_, _, _, _, _, rfl⟩)
      | false =>
        cases dip with
        | none => exact Or.inl rfl
        | some dip =>
          cases gp with
          | none => exact Or.inr (Or.inl ⟨_, rfl⟩)
          | some policy => exact Or.inr (Or.inr ⟨_, _, _, _, _, rfl⟩)

/-- The no-policy paths of the callback: with `getPolicy = none` the
verdict is whatever `allowed_` already holds (or an early deny), and no
record is emitted. -/
theorem upstreamCallback_no_policy (config : Config) (option : SocketOption)
    (sd : StreamDetails) (headers : Headers) (st : FilterState)
    (hpol : option.getPolicy = none) :
    AccessFilter.upstreamCallback config (some option) sd headers st
        = ⟨false, st, []⟩
    ∨ (∃ le, AccessFilter.upstreamCallback config (some option) sd headers st
        = ⟨st.allowed, { st with log_entry := le }, [LEvent.initReq]⟩) := by
  obtain ⟨ua, ra⟩ := sd
  obtain ⟨pod_ip, ingress, port, identity, rpi, gp⟩ := option
  have hgp : gp = none := hpol
  subst hgp
  cases ua with
  | none => exact Or.inl rfl
  | some dst_address =>
    obtain ⟨dip, dstr⟩ := dst_address
    cases ingress with
    | true => exact Or.inr ⟨_, rfl⟩
    | false =>
      cases dip with
      | none => exact Or.inl rfl
      | some dip => exact Or.inr ⟨_, rfl⟩

theorem emits_Log (config : Config) (e : LogEntry) (t : EntryType) :
    emits (config.Log e t) = if config.accessLogOpen then [t] else [] := by
  unfold Config.Log
  split <;> rfl

/-- C1: when the connection's Cilium socket option carries no policy
object, the resolved verdict is false, no audit record is emitted
during the request phase, and the response phase emits exactly one
`Denied` record and increments the `access_denied` counter by one. -/
theorem missing_policy_denies (config : Config) (c : Conn)
    (option : SocketOption) (sd : StreamDetails)
    (reqHeaders respHeaders : Headers)
    (hso : c.socketOption = some option)
    (hpol : option.getPolicy = none)
    (hopen : config.accessLogOpen = true) :
    let r := AccessFilter.runRequest config (some c) sd reqHeaders respHeaders
    r.verdict = false
    ∧ emitted r.requestTrace = []
    ∧ emits r.responseTrace = [EntryType.Denied]
    ∧ r.accessDeniedInc = 1 := by
  dsimp only
  simp only [AccessFilter.runRequest]
  rw [hso]
  rcases upstreamCallback_no_policy config option sd
      (AccessFilter.decodeHeaders config (some c) reqHeaders).headersOut
      AccessFilter.initState hpol with heq | ⟨le, heq⟩ <;>
    rw [heq] <;>
    simp [AccessFilter.encodeHeaders, AccessFilter.initState, emits, emitted,
      Config.Log, hopen, LogEntry.updateFromResponse]

/-- Witness for C1: a concrete ingress connection whose socket option
has no policy is denied, emits nothing in the request phase, and emits
one `Denied` record with a counter increment of one. -/
theorem missing_policy_denies_witness :
    let r := AccessFilter.runRequest (Config.make [] true)
      (some ⟨some ⟨"10.0.0.1", true, 80, 5, fun _ => 0, none⟩⟩)
      ⟨some ⟨some ⟨167772161, 80⟩, "10.0.0.1:80"⟩, "10.0.0.9:5555"⟩ [] []
    r.verdict = false
    ∧ emitted r.requestTrace = []
    ∧ emits r.responseTrace = [EntryType.Denied]
    ∧ r.accessDeniedInc = 1 :=
  missing_policy_denies (Config.make [] true)
    ⟨some ⟨"10.0.0.1", true, 80, 5, fun _ => 0, none⟩⟩
    ⟨"10.0.0.1", true, 80, 5, fun _ => 0, none⟩
    ⟨some ⟨some ⟨167772161, 80⟩, "10.0.0.1:80"⟩, "10.0.0.9:5555"⟩ [] []
    rfl rfl rfl

/-- C3: when the resolved verdict is true, the full event trace emits
exactly one `Request` record followed by exactly one `Response` record,
in that order, and the denial counter is not incremented. -/
theorem allowed_request_then_response (config : Config) (conn : Option Conn)
    (sd : StreamDetails) (reqHeaders respHeaders : Headers)
    (hopen : config.accessLogOpen = true)
    (hv : (AccessFilter.runRequest config conn sd reqHeaders respHeaders).verdict
      = true) :
    emits ((AccessFilter.runRequest config conn sd reqHeaders respHeaders).requestTrace
        ++ (AccessFilter.runRequest config conn sd reqHeaders respHeaders).responseTrace)
      = [EntryType.Request, EntryType.Response]
    ∧ (AccessFilter.runRequest config conn sd reqHeaders respHeaders).accessDeniedInc
      = 0 := by
  cases conn with
  | none => simp [AccessFilter.runRequest] at hv
  | some c =>
    simp only [AccessFilter.runRequest] at hv ⊢
    rcases upstreamCallback_shape config c.socketOption sd
        (AccessFilter.decodeHeaders config (some c) reqHeaders).headersOut
        AccessFilter.initState with heq | ⟨le, heq⟩ | ⟨b, ing, port, identity, le, heq⟩
    · rw [heq] at hv
      exact absurd hv (by simp)
    · rw [heq] at hv
      exact absurd hv (by simp [AccessFilter.initState])
    · rw [heq] at hv ⊢
      have hb : b = true := hv
      subst hb
      simp [AccessFilter.encodeHeaders, emits, emitted, Config.Log, hopen,
        LogEntry.updateFromResponse]

/-- Witness for C3: a concrete allowed ingress request emits one
`Request` then one `Response` record, with no counter increment. -/
theorem allowed_request_then_response_witness :
    emits ((AccessFilter.runRequest (Config.make [] true)
        (some ⟨some ⟨"10.0.0.1", true, 80, 5, fun _ => 0,
          some ⟨fun _ _ _ _ => true, []⟩⟩⟩)
        ⟨some ⟨some ⟨167772161, 80⟩, "10.0.0.1:80"⟩, "10.0.0.9:5555"⟩ [] []).requestTrace
      ++ (AccessFilter.runRequest (Config.make [] true)
        (some ⟨some ⟨"10.0.0.1", true, 80, 5, fun _ => 0,
          some ⟨fun _ _ _ _ => true, []⟩⟩⟩)
        ⟨some ⟨some ⟨167772161, 80⟩, "10.0.0.1:80"⟩, "10.0.0.9:5555"⟩ [] []).responseTrace)
      = [EntryType.Request, EntryType.Response]
    ∧ (AccessFilter.runRequest (Config.make [] true)
        (some ⟨some ⟨"10.0.0.1", true, 80, 5, fun _ => 0,
          some ⟨fun _ _ _ _ => true, []⟩⟩⟩)
        ⟨some ⟨some ⟨167772161, 80⟩, "10.0.0.1:80"⟩, "10.0.0.9:5555"⟩ [] []).accessDeniedInc
      = 0 :=
  allowed_request_then_response (Config.make [] true)
    (some ⟨some ⟨"10.0.0.1", true, 80, 5, fun _ => 0,
      some ⟨fun _ _ _ _ => true, []⟩⟩⟩)
    ⟨some ⟨some ⟨167772161, 80⟩, "10.0.0.1:80"⟩, "10.0.0.9:5555"⟩ [] []
    rfl rfl

/-- C4: when the verdict is false and response headers are reached, the
request phase emitted no record, the response phase emits exactly one
`Denied` record, and the denial counter increments by exactly one. -/
theorem denied_response_record (config : Config) (c : Conn)
    (sd : StreamDetails) (reqHeaders respHeaders : Headers)
    (hopen : config.accessLogOpen = true)
    (hv : (AccessFilter.runRequest config (some c) sd reqHeaders respHeaders).verdict
      = false) :
    emitted (AccessFilter.runRequest config (some c) sd reqHeaders respHeaders).requestTrace
      = []
    ∧ emits (AccessFilter.runRequest config (some c) sd reqHeaders respHeaders).responseTrace
      = [EntryType.Denied]
    ∧ (AccessFilter.runRequest config (some c) sd reqHeaders respHeaders).accessDeniedInc
      = 1 := by
  simp only [AccessFilter.runRequest] at hv ⊢
  rcases upstreamCallback_shape config c.socketOption sd
      (AccessFilter.decodeHeaders config (some c) reqHeaders).headersOut
      AccessFilter.initState with heq | ⟨le, heq⟩ | ⟨b, ing, port, identity, le, heq⟩
  · rw [heq]
    simp [AccessFilter.encodeHeaders, AccessFilter.initState, emits, emitted,
      Config.Log, hopen, LogEntry.updateFromResponse]
  · rw [heq]
    simp [AccessFilter.encodeHeaders, AccessFilter.initState, emits, emitted,
      Config.Log, hopen, LogEntry.updateFromResponse]
  · rw [heq] at hv ⊢
    have hb : b = false := hv
    subst hb
    simp [AccessFilter.encodeHeaders, emits, emitted, Config.Log, hopen,
      LogEntry.updateFromResponse]

/-- Witness for C4: a concrete denied ingress request (policy present,
`Allowed` false) emits nothing in the request phase, one `Denied`
record at response time, and a counter increment of one. -/
theorem denied_response_record_witness :
    emitted (AccessFilter.runRequest (Config.make [] true)
        (some ⟨some ⟨"10.0.0.1", true, 80, 5, fun _ => 0,
          some ⟨fun _ _ _ _ => false, []⟩⟩⟩)
        ⟨some ⟨some ⟨167772161, 80⟩, "10.0.0.1:80"⟩, "10.0.0.9:5555"⟩ [] []).requestTrace
      = []
    ∧ emits (AccessFilter.runRequest (Config.make [] true)
        (some ⟨some ⟨"10.0.0.1", true, 80, 5, fun _ => 0,
          some ⟨fun _ _ _ _ => false, []⟩⟩⟩)
        ⟨some ⟨some ⟨167772161, 80⟩, "10.0.0.1:80"⟩, "10.0.0.9:5555"⟩ [] []).responseTrace
      = [EntryType.Denied]
    ∧ (AccessFilter.runRequest (Config.make [] true)
        (some ⟨some ⟨"10.0.0.1", true, 80, 5, fun _ => 0,
          some ⟨fun _ _ _ _ => false, []⟩⟩⟩)
        ⟨some ⟨some ⟨167772161, 80⟩, "10.0.0.1:80"⟩, "10.0.0.9:5555"⟩ [] []).accessDeniedInc
      = 1 :=
  denied_response_record (Config.make [] true)
    ⟨some ⟨"10.0.0.1", true, 80, 5, fun _ => 0, some ⟨fun _ _ _ _ => false, []⟩⟩⟩
    ⟨some ⟨some ⟨167772161, 80⟩, "10.0.0.1:80"⟩, "10.0.0.9:5555"⟩ [] []
    rfl rfl

/-- C7 amended: per request, at most one `InitFromRequest` call occurs
and it happens in the request phase, before the response phase's
`UpdateFromResponse` — but a metadata-missing deny path reaches
`UpdateFromResponse` with no preceding `InitFromRequest`, so "exactly
one" does not hold; a `Denied` emission and a `Request` emission never
both occur for the same entry, so `Denied` never follows `Request`. -/
theorem log_entry_protocol (config : Config) (conn : Option Conn)
    (sd : StreamDetails) (reqHeaders respHeaders : Headers) :
    let r := AccessFilter.runRequest config conn sd reqHeaders respHeaders
    (r.requestTrace ++ r.responseTrace).countP isInit ≤ 1
    ∧ LEvent.updateResp ∉ r.requestTrace
    ∧ LEvent.initReq ∉ r.responseTrace
    ∧ ¬ (EntryType.Request ∈ emits (r.requestTrace ++ r.responseTrace)
        ∧ EntryType.Denied ∈ emits (r.requestTrace ++ r.responseTrace)) := by
  dsimp only
  cases conn with
  | none => simp [AccessFilter.runRequest, emits, emitted]
  | some c =>
    simp only [AccessFilter.runRequest]
    rcases upstreamCallback_shape config c.socketOption sd
        (AccessFilter.decodeHeaders config (some c) reqHeaders).headersOut
        AccessFilter.initState with heq | ⟨le, heq⟩ | ⟨b, ing, port, identity, le, heq⟩
    · rw [heq]
      cases hopen : config.accessLogOpen <;>
        simp [AccessFilter.encodeHeaders, AccessFilter.initState, emits, emitted,
          Config.Log, hopen, isInit]
    · rw [heq]
      cases hopen : config.accessLogOpen <;>
        simp [AccessFilter.encodeHeaders, AccessFilter.initState, emits, emitted,
          Config.Log, hopen, isInit]
    · rw [heq]
      cases b <;> cases hopen : config.accessLogOpen <;>
        simp [AccessFilter.encodeHeaders, emits, emitted, Config.Log, hopen, isInit]

/-- Witness for the amended C7: the protocol invariant evaluated on a
concrete allowed ingress request. -/
theorem log_entry_protocol_witness :
    let r := AccessFilter.runRequest (Config.make [] true)
      (some ⟨some soIngress5⟩) sdIp [] []
    (r.requestTrace ++ r.responseTrace).countP isInit ≤ 1
    ∧ LEvent.updateResp ∉ r.requestTrace
    ∧ LEvent.initReq ∉ r.responseTrace
    ∧ ¬ (EntryType.Request ∈ emits (r.requestTrace ++ r.responseTrace)
        ∧ EntryType.Denied ∈ emits (r.requestTrace ++ r.responseTrace)) :=
  log_entry_protocol (Config.make [] true) (some ⟨some soIngress5⟩) sdIp [] []

/-- Counterexample to C7 as stated: with the Cilium socket option
missing, the callback denies before any `InitFromRequest`, yet the
response phase still calls `UpdateFromResponse` — an
`UpdateFromResponse` call preceded by zero `InitFromRequest` calls. -/
theorem log_entry_protocol_counterexample :
    LEvent.updateResp
      ∈ ((AccessFilter.runRequest (Config.make [] true) (some ⟨none⟩)
          sdIp [] []).requestTrace
        ++ (AccessFilter.runRequest (Config.make [] true) (some ⟨none⟩)
          sdIp [] []).responseTrace)
    ∧ ((AccessFilter.runRequest (Config.make [] true) (some ⟨none⟩)
          sdIp [] []).requestTrace
        ++ (AccessFilter.runRequest (Config.make [] true) (some ⟨none⟩)
          sdIp [] []).responseTrace).countP isInit = 0 := by
  decide

/-- Counterexample to C6 as stated: an allowed ingress request with
local identity 5 and declared port 80 emits exactly one `Request`
record, but its destination identity field is 0, not 5: on the ingress
path `destination_identity` keeps its initializer 0 and the local
identity is only passed to the policy check. -/
theorem ingress_destination_identity_counterexample :
    (AccessFilter.runRequest (Config.make [] true) (some ⟨some soIngress5⟩)
      sdIp [] []).verdict = true
    ∧ soIngress5.ingress = true ∧ soIngress5.identity = 5 ∧ soIngress5.port = 80
    ∧ (emitted (AccessFilter.runRequest (Config.make [] true)
        (some ⟨some soIngress5⟩) sdIp [] []).requestTrace).map
          (fun p => (p.1, p.2.destination_identity)) = [(EntryType.Request, 0)]
    ∧ (0 : Nat) ≠ 5 := by
  refine ⟨rfl, rfl, rfl, rfl, rfl, by decide⟩

/-- C6 amended: for every ingress request with a policy object and a
selected upstream host, the identity and port handed to policy
evaluation are the connection's local identity and declared port, but
every `Request` record emitted in the request phase carries destination
identity 0 — the field is never assigned on the ingress path. -/
theorem ingress_policy_identity (config : Config) (c : Conn)
    (option : SocketOption) (policy : Policy) (a : Address)
    (sd : StreamDetails) (reqHeaders respHeaders : Headers)
    (hso : c.socketOption = some option)
    (hin : option.ingress = true)
    (ha : sd.upstreamAddress = some a)
    (hpol : option.getPolicy = some policy) :
    let r := AccessFilter.runRequest config (some c) sd reqHeaders respHeaders
    LEvent.policyCall true option.port option.identity ∈ r.requestTrace
    ∧ ∀ p ∈ emitted r.requestTrace, p.2.destination_identity = 0 := by
  dsimp only
  simp only [AccessFilter.runRequest]
  rw [hso]
  obtain ⟨ua, ra⟩ := sd
  obtain ⟨pod_ip, ingress, port, identity, rpi, gp⟩ := option
  have hua : ua = some a := ha
  have hing : ingress = true := hin
  have hgp : gp = some policy := hpol
  subst hua hing hgp
  obtain ⟨dip, dstr⟩ := a
  have heq : AccessFilter.upstreamCallback config
      (some ⟨pod_ip, true, port, identity, rpi, some policy⟩)
      ⟨some ⟨dip, dstr⟩, ra⟩
      (AccessFilter.decodeHeaders config (some c) reqHeaders).headersOut
      AccessFilter.initState
      = (let hdrs := (AccessFilter.decodeHeaders config (some c) reqHeaders).headersOut
         let le0 := LogEntry.initFromRequest pod_ip true identity ra 0
           ⟨dip, dstr⟩ hdrs
         let allowed := policy.Allowed true port identity hdrs
         let le := { le0 with diagnostics := le0.diagnostics ++ policy.diag }
         ⟨allowed, ⟨allowed, le⟩,
           [LEvent.initReq, LEvent.policyCall true port identity]
             ++ (if allowed then config.Log le EntryType.Request else [])⟩) := rfl
  rw [heq]
  dsimp only
  constructor
  · simp
  · intro p hp
    rw [emitted_append, emitted_cons_initReq, emitted_cons_policyCall,
      emitted_nil] at hp
    rcases hA : policy.Allowed true port identity
        (AccessFilter.decodeHeaders config (some c) reqHeaders).headersOut
      with _ | _ <;> rw [hA] at hp
    · simp [emitted] at hp
    · cases hopen : config.accessLogOpen <;>
        simp [Config.Log, hopen, emitted] at hp
      subst hp
      rfl

/-- Witness for the amended C6: the concrete allowed ingress request
with local identity 5 and declared port 80 passes (true, 80, 5) to the
policy and emits a `Request` record with destination identity 0. -/
theorem ingress_policy_identity_witness :
    LEvent.policyCall true 80 5
      ∈ (AccessFilter.runRequest (Config.make [] true)
          (some ⟨some soIngress5⟩) sdIp [] []).requestTrace
    ∧ ∀ p ∈ emitted (AccessFilter.runRequest (Config.make [] true)
          (some ⟨some soIngress5⟩) sdIp [] []).requestTrace,
        p.2.destination_identity = 0 :=
  ingress_policy_identity (Config.make [] true) ⟨some soIngress5⟩ soIngress5
    allowAllPolicy ⟨some ⟨167772161, 80⟩, "10.0.0.1:80"⟩ sdIp [] []
    rfl rfl rfl rfl

/-- C2: a request arriving with no active transport connection gets a
synchronous 403 local reply carrying the configured (normalized, or
default) denial body, iteration stops, no deferred callback is
registered (so no policy lookup can occur), and no audit record is
emitted in either phase. -/
theorem decode_no_connection_403 (rawBody : List Char) (openOk : Bool)
    (sd : StreamDetails) (reqHeaders respHeaders : Headers) :
    let config := Config.make rawBody openOk
    let d := AccessFilter.decodeHeaders config none reqHeaders
    let r := AccessFilter.runRequest config none sd reqHeaders respHeaders
    d.localReply = some (403, Config.normBody rawBody)
    ∧ d.status = FilterHeadersStatus.StopIteration
    ∧ d.callbackRegistered = false
    ∧ r.requestTrace = [] ∧ r.responseTrace = []
    ∧ r.accessDeniedInc = 0 :=
  ⟨rfl, rfl, rfl, rfl, rfl, rfl⟩

/-- C9: constructing a `Config` from a protobuf configuration with a
non-empty `policy_name` fails with a configuration error, while any
configuration with an empty `policy_name` — in particular one carrying
the legacy `is_ingress` flag — constructs successfully. -/
theorem fromProto_policy_name_rejected (pc : L7PolicyProto) (openOk : Bool) :
    (pc.policy_name ≠ "" → Config.fromProto pc openOk =
        Except.error "cilium.l7policy: policy_name is no longer supported")
    ∧ (pc.policy_name = "" → Config.fromProto pc openOk =
        Except.ok (Config.make pc.denied_403_body.data openOk)) := by
  constructor
  · intro h
    simp [Config.fromProto, h]
  · intro h
    simp [Config.fromProto, h]

/-- Witness for C9: a configuration with legacy `policy_name` set is
rejected; one with the deprecated `is_ingress` flag (but empty
`policy_name`) is accepted. -/
theorem fromProto_policy_name_rejected_witness :
    Config.fromProto ⟨"", "body", "legacy", true⟩ true =
        Except.error "cilium.l7policy: policy_name is no longer supported"
    ∧ Config.fromProto ⟨"", "body", "", true⟩ true =
        Except.ok (Config.make "body".data true) :=
  ⟨(fromProto_policy_name_rejected ⟨"", "body", "legacy", true⟩ true).1
      (by decide),
   (fromProto_policy_name_rejected ⟨"", "body", "", true⟩ true).2 rfl⟩

/-- C10: `decodeHeaders` applies the same header modification whether or
not a connection exists (the removal precedes the connection check), and
that modification removes exactly the entries keyed
`x-envoy-original-dst-host`, leaving every other header untouched. -/
theorem decodeHeaders_header_effect (config : Config) (conn : Option Conn)
    (headers : Headers) :
    (AccessFilter.decodeHeaders config conn headers).headersOut
      = (AccessFilter.decodeHeaders config none headers).headersOut
    ∧ ∀ kv, kv ∈ (AccessFilter.decodeHeaders config conn headers).headersOut
        ↔ (kv ∈ headers ∧ ¬ kv.1 = envoyOriginalDstHost) := by
  constructor
  · cases conn <;> rfl
  · intro kv
    cases conn <;>
      simp [AccessFilter.decodeHeaders, removeHeader, List.mem_filter]

/-- C5: each metadata-missing condition in the deferred callback —
missing Cilium socket option, missing upstream host address, or a
non-IP egress destination — returns `false` (deny) as an ordinary
value, leaving the filter state untouched and producing no events; the
callback has no error channel, so nothing is raised to the pipeline. -/
theorem callback_metadata_missing_denies (config : Config)
    (socketOption : Option SocketOption) (sd : StreamDetails)
    (headers : Headers) (st : FilterState)
    (h : socketOption = none ∨ sd.upstreamAddress = none
        ∨ ∃ so a, socketOption = some so ∧ so.ingress = false
            ∧ sd.upstreamAddress = some a ∧ a.ip = none) :
    AccessFilter.upstreamCallback config socketOption sd headers st
      = ⟨false, st, []⟩ := by
  rcases h with h | h | ⟨so, a, hso, hin, ha, hip⟩
  · subst h
    rfl
  · cases socketOption with
    | none => rfl
    | some so => simp [AccessFilter.upstreamCallback, h]
  · subst hso
    simp [AccessFilter.upstreamCallback, ha, hin, hip]

/-- Witness for C5: a callback invoked with no Cilium socket option
denies with no events and unchanged state. -/
theorem callback_metadata_missing_denies_witness :
    AccessFilter.upstreamCallback ⟨"Access denied\r\n".data, true⟩ none
        ⟨none, "10.0.0.2:42"⟩ [] AccessFilter.initState
      = ⟨false, AccessFilter.initState, []⟩ :=
  callback_metadata_missing_denies ⟨"Access denied\r\n".data, true⟩ none
    ⟨none, "10.0.0.2:42"⟩ [] AccessFilter.initState (Or.inl rfl)

theorem endsCRLF_true_iff (b : List Char) :
    endsCRLF b = true
      ↔ 2 ≤ b.length ∧ b.getD (b.length - 2) ' ' = '\r'
        ∧ b.getD (b.length - 1) ' ' = '\n' := by
  simp [endsCRLF, Bool.and_eq_true, decide_eq_true_eq, and_assoc]

/-- The append condition of `Config.normBody` is exactly the negation
of `endsCRLF`. -/
theorem normBody_cond (b : List Char) :
    (b.length < 2 ∨ ¬ b.getD (b.length - 2) ' ' = '\r'
      ∨ ¬ b.getD (b.length - 1) ' ' = '\n')
      ↔ endsCRLF b = false := by
  rw [← Bool.not_eq_true, endsCRLF_true_iff]
  constructor
  · rintro (h | h | h) ⟨h1, h2, h3⟩
    · omega
    · exact h h2
    · exact h h3
  · intro h
    by_cases h1 : 2 ≤ b.length
    · by_cases h2 : b.getD (b.length - 2) ' ' = '\r'
      · by_cases h3 : b.getD (b.length - 1) ' ' = '\n'
        · exact absurd ⟨h1, h2, h3⟩ h
        · exact Or.inr (Or.inr h3)
      · exact Or.inr (Or.inl h2)
    · exact Or.inl (by omega)

/-- A list whose last two characters are CR and LF has `['\r', '\n']`
as a suffix. -/
theorem endsCRLF_suffix (b : List Char) (h : endsCRLF b = true) :
    "\r\n".data <:+ b := by
  rw [endsCRLF_true_iff] at h
  obtain ⟨hlen, h2, h3⟩ := h
  have hd : (b.drop (b.length - 2)).length = 2 := by
    rw [List.length_drop]
    omega
  obtain ⟨x, y, hxy⟩ := List.length_eq_two.mp hd
  have hx : b[b.length - 2]? = some x := by
    have hg := List.getElem?_drop b (b.length - 2) 0
    rw [hxy] at hg
    simpa using hg.symm
  have hy : b[b.length - 1]? = some y := by
    have hg := List.getElem?_drop b (b.length - 2) 1
    rw [hxy] at hg
    have h1 : b.length - 2 + 1 = b.length - 1 := by omega
    rw [h1] at hg
    simpa using hg.symm
  have hx2 : x = '\r' := by
    rw [List.getD_eq_getElem?_getD, hx] at h2
    simpa using h2
  have hy2 : y = '\n' := by
    rw [List.getD_eq_getElem?_getD, hy] at h3
    simpa using h3
  subst hx2 hy2
  refine ⟨b.take (b.length - 2), ?_⟩
  have hlit : ("\r\n".data : List Char) = ['\r', '\n'] := rfl
  rw [hlit, ← hxy, List.take_append_drop]

/-- Either branch of the CRLF-append step ends in CRLF. -/
theorem normBody_suffix_aux (b : List Char) :
    "\r\n".data <:+ (if b.length < 2 ∨ ¬ b.getD (b.length - 2) ' ' = '\r'
        ∨ ¬ b.getD (b.length - 1) ' ' = '\n' then b ++ "\r\n".data else b) := by
  split
  · exact List.suffix_append _ _
  · next hcond =>
    refine endsCRLF_suffix _ ?_
    rcases hE : endsCRLF b with _ | _
    · exact absurd ((normBody_cond b).mpr hE) hcond
    · rfl

/-- Counterexample to C8 as stated: a configured body already ending in
two CRLFs is left unchanged by construction, so the stored
`denied_403_body` ends with two trailing CRLFs, not exactly one. -/
theorem denied_body_crlf_counterexample :
    Config.normBody "a\r\n\r\n".data = "a\r\n\r\n".data
    ∧ ¬ endsWithOneCRLF (Config.normBody "a\r\n\r\n".data) := by
  constructor
  · decide
  · unfold endsWithOneCRLF
    decide

/-- C8 amended: the stored `denied_403_body` always ends with at least
one trailing CRLF; an empty input yields exactly `"Access denied\r\n"`,
an input not ending in CRLF has one appended, and an input already
ending in CRLF is stored unchanged (so an input ending in two CRLFs
keeps both). -/
theorem denied_body_normalization (rawBody : List Char) :
    "\r\n".data <:+ Config.normBody rawBody
    ∧ (rawBody = [] → Config.normBody rawBody = "Access denied\r\n".data)
    ∧ (endsCRLF rawBody = false → Config.normBody rawBody
        = (if rawBody = [] then "Access denied".data else rawBody)
          ++ "\r\n".data)
    ∧ (rawBody ≠ [] → endsCRLF rawBody = true →
        Config.normBody rawBody = rawBody) := by
  refine ⟨?_, ?_, ?_, ?_⟩
  · unfold Config.normBody
    dsimp only
    exact normBody_suffix_aux _
  · intro h
    subst h
    decide
  · intro h
    by_cases hr : rawBody = []
    · subst hr
      decide
    · have hlen : ¬ rawBody.length = 0 := fun hl =>
        hr (List.length_eq_zero.mp hl)
      rw [if_neg hr]
      unfold Config.normBody
      dsimp only
      rw [if_neg hlen, if_pos ((normBody_cond rawBody).mpr h)]
  · intro hne h
    have hlen : ¬ rawBody.length = 0 := fun hl =>
      hne (List.length_eq_zero.mp hl)
    have hcf : ¬ (rawBody.length < 2
        ∨ ¬ rawBody.getD (rawBody.length - 2) ' ' = '\r'
        ∨ ¬ rawBody.getD (rawBody.length - 1) ' ' = '\n') := by
      intro hc
      rw [(normBody_cond rawBody).mp hc] at h
      exact Bool.noConfusion h
    unfold Config.normBody
    dsimp only
    rw [if_neg hlen, if_neg hcf]

/-- Witness for the amended C8: a body lacking CRLF gets one appended,
an empty body becomes the default, and a body already ending in CRLF is
kept unchanged. -/
theorem denied_body_normalization_witness :
    ("\r\n".data <:+ Config.normBody "abc".data)
    ∧ Config.normBody [] = "Access denied\r\n".data
    ∧ Config.normBody "abc".data
        = (if ("abc".data : List Char) = [] then "Access denied".data
           else "abc".data) ++ "\r\n".data
    ∧ Config.normBody "ok\r\n".data = "ok\r\n".data :=
  ⟨(denied_body_normalization "abc".data).1,
   (denied_body_normalization []).2.1 rfl,
   (denied_body_normalization "abc".data).2.2.1 (by decide),
   (denied_body_normalization "ok\r\n".data).2.2.2 (by decide) (by decide)⟩

end Cilium
